import Mathlib

/-!
Formal model of `src/plonk-core/src/lookup/witness_table.rs`, the plookup witness
table of this repository, together with the lookup-table operations it calls.
`WitnessTable` and its two mutators are translated directly from the source file.
`MultiSet`, the error enum and the `LookupTable` operations live elsewhere in the
repository (not under `src/`) and are modelled from the specification; where the
specification's description of the table constructors conflicts with the behaviour
asserted by the repository's own tests (in `witness_table.rs` itself), the
definitions follow the tests and the discrepancy is proved explicitly below.
-/

set_option maxRecDepth 100000

namespace Plonk

/-- Decidable equality of `Except` results, used to evaluate concrete lookup
outcomes. -/
def exceptDecEq {e a : Type} [DecidableEq e] [DecidableEq a] :
    (x y : Except e a) → Decidable (x = y)
  | Except.ok v, Except.ok w =>
      if h : v = w then isTrue (congrArg Except.ok h)
      else isFalse (fun hc => h (Except.ok.inj hc))
  | Except.ok _, Except.error _ => isFalse (fun hc => Except.noConfusion hc)
  | Except.error _, Except.ok _ => isFalse (fun hc => Except.noConfusion hc)
  | Except.error v, Except.error w =>
      if h : v = w then isTrue (congrArg Except.error h)
      else isFalse (fun hc => h (Except.error.inj hc))

instance {e a : Type} [DecidableEq e] [DecidableEq a] : DecidableEq (Except e a) :=
  exceptDecEq

/-- Modelled from the spec: the repository's error enum is not under `src/`;
section 7 of the specification gives a single failure kind, a lookup miss,
reported when a queried `(a, b, d)` triple has no matching row. -/
inductive Error : Type
  | ElementNotIndexed
  deriving DecidableEq

/-- Modelled from the spec: `MultiSet` is not under `src/`; sections 3 and 4.1
describe it as an append-only insertion-ordered sequence of field elements. -/
structure MultiSet (F : Type) where
  elems : List F
  deriving DecidableEq

/-- Modelled from the spec (section 4.1): `push` appends the value at the end;
no failure mode. -/
def MultiSet.push {F : Type} (s : MultiSet F) (v : F) : MultiSet F :=
  ⟨s.elems ++ [v]⟩

/-- Modelled from the spec (section 3): a lookup table is an ordered collection of
4-wide rows `(a, b, c, d)` of field elements. -/
structure LookupTable (F : Type) where
  rows : List (F × F × F × F)
  deriving DecidableEq

/-- Modelled from the spec (section 4.2): the empty table. -/
def LookupTable.new (F : Type) : LookupTable F := ⟨[]⟩

/-- Modelled from the spec (section 4.2): `lookup (a, b, d)` scans the rows for one
whose first, second and fourth entries are `(a, b, d)` and returns its third entry;
it fails with the lookup-miss error when no row matches. -/
def LookupTable.lookup {F : Type} [DecidableEq F] (t : LookupTable F) (a b d : F) :
    Except Error F :=
  match t.rows.find? (fun r => decide (r.1 = a ∧ r.2.1 = b ∧ r.2.2.2 = d)) with
  | some r => Except.ok r.2.2.1
  | none => Except.error Error.ElementNotIndexed

/-- The integer interval `[lower, upper)` used to enumerate table rows. -/
def rangeList (lower upper : ℕ) : List ℕ :=
  List.range' lower (upper - lower)

/-- Modelled from the spec (section 4.2): the selector of the XOR operation family
is the field's additive inverse of one. -/
def SELECTOR_XOR (F : Type) [CommRing F] : F := -1

/-- Modelled from the spec (section 4.2): the selector of the addition operation
family is the field's zero. -/
def SELECTOR_ADD (F : Type) [CommRing F] : F := 0

/-- One XOR row: operands are the embeddings of `a` and `b`, the output is the
bitwise XOR of the integers re-embedded into the field, the selector is
`SELECTOR_XOR`. -/
def xorRow (F : Type) [CommRing F] (a b : ℕ) : F × F × F × F :=
  ((a : F), (b : F), ((Nat.xor a b : ℕ) : F), SELECTOR_XOR F)

/-- One addition row: operands are the embeddings of `a` and `b`, the output is
their field sum, the selector is `SELECTOR_ADD`. -/
def addRow (F : Type) [CommRing F] (a b : ℕ) : F × F × F × F :=
  ((a : F), (b : F), (a : F) + (b : F), SELECTOR_ADD F)

/-- All rows of one operation family: one row for every pair `(a, b)` with both
operands drawn from `[lower, upper)`, in enumeration order. -/
def opRows (F : Type) [CommRing F] (row : ℕ → ℕ → F × F × F × F)
    (lower upper : ℕ) : List (F × F × F × F) :=
  ((rangeList lower upper) ×ˢ (rangeList lower upper)).map
    (fun p => row p.1 p.2)

/-- Modelled from the spec (section 4.2), with the parameter convention corrected
against the repository's own tests: the `LookupTable` constructors are not under
`src/`, and the spec describes `insert_multi_xor (min, max)` as enumerating the
inclusive interval `[min, max]`. That reading contradicts the tests in
`witness_table.rs`: `test_lookup_fuctionality_1` (lines 107-129) builds
`xor_table(0, 3)` and asserts that looking up `(2, 5, -1)` succeeds while
`(25, 5, -1)` fails, and `test_lookup_fuctionality_2` (lines 136-178) builds
`insert_multi_add(2, 3)` and asserts that `(4, 6, 0)` succeeds — so the second
parameter is a bit count `n` and the operands range over `[lower_bound, 2^n)`.
This definition follows the tests; `insert_multi_xor_specWords` below follows the
spec's literal words, and the two are proved to disagree. -/
def LookupTable.insert_multi_xor {F : Type} [CommRing F] (t : LookupTable F)
    (lower_bound n : ℕ) : LookupTable F :=
  ⟨t.rows ++ opRows F (xorRow F) lower_bound (2 ^ n)⟩

/-- Modelled from the spec (section 4.2) with the same test-corrected parameter
convention as `insert_multi_xor`: one addition row for every pair of operands in
`[lower_bound, 2^n)`, with output the field sum and selector `SELECTOR_ADD`. -/
def LookupTable.insert_multi_add {F : Type} [CommRing F] (t : LookupTable F)
    (lower_bound n : ℕ) : LookupTable F :=
  ⟨t.rows ++ opRows F (addRow F) lower_bound (2 ^ n)⟩

/-- Modelled from the spec (section 4.2): `xor_table` is `new` followed by
`insert_multi_xor`. -/
def LookupTable.xor_table (F : Type) [CommRing F] (lower_bound n : ℕ) :
    LookupTable F :=
  (LookupTable.new F).insert_multi_xor lower_bound n

/-- The spec's literal words for `insert_multi_xor (min, max)` (section 4.2): one
XOR row for every pair of operands in the inclusive interval `[min, max]`. Kept
for comparison with the test-corrected `insert_multi_xor`. -/
def LookupTable.insert_multi_xor_specWords {F : Type} [CommRing F]
    (t : LookupTable F) (mn mx : ℕ) : LookupTable F :=
  ⟨t.rows ++ opRows F (xorRow F) mn (mx + 1)⟩

/-- The spec's literal words for `insert_multi_add (min, max)` (section 4.2). -/
def LookupTable.insert_multi_add_specWords {F : Type} [CommRing F]
    (t : LookupTable F) (mn mx : ℕ) : LookupTable F :=
  ⟨t.rows ++ opRows F (addRow F) mn (mx + 1)⟩

/-- The spec's literal words for `xor_table (min, max)`. -/
def LookupTable.xor_table_specWords (F : Type) [CommRing F] (mn mx : ℕ) :
    LookupTable F :=
  (LookupTable.new F).insert_multi_xor_specWords mn mx

/-- Stand-in field for the scalar fields the repository's tests instantiate
(`ark_bls12_381::Fr`, `ark_bls12_377::Fr`): a `ZMod` whose modulus, like the BLS
moduli, exceeds `2^64`, so that the embedding of `u64` values is injective. -/
abbrev Fw : Type := ZMod 18446744073709551617

instance : NeZero (18446744073709551617 : ℕ) := ⟨by norm_num⟩

/-- Translated from `src/plonk-core/src/lookup/witness_table.rs` lines 14-46:
four parallel multisets of wire values, one row per gate. -/
structure WitnessTable (F : Type) where
  f_1 : MultiSet F
  f_2 : MultiSet F
  f_3 : MultiSet F
  f_4 : MultiSet F
  deriving DecidableEq

/-- Translated from the source, lines 52-55: `new` is the default witness table,
four empty multisets. -/
def WitnessTable.new (F : Type) : WitnessTable F :=
  ⟨⟨[]⟩, ⟨[]⟩, ⟨[]⟩, ⟨[]⟩⟩

/-- Translated from the source, lines 61-72: pushes the four given wire values onto
`f_1`..`f_4` respectively; no failure mode. -/
def WitnessTable.from_wire_values {F : Type} (w : WitnessTable F)
    (left_wire_val right_wire_val output_wire_val fourth_wire_val : F) :
    WitnessTable F :=
  ⟨w.f_1.push left_wire_val, w.f_2.push right_wire_val,
   w.f_3.push output_wire_val, w.f_4.push fourth_wire_val⟩

/-- Translated from the source, lines 76-93: queries the lookup table; the `?`
operator returns early, with `self` unmutated, when the lookup fails; on success
the four values are pushed and `Ok(())` is returned. The Rust `&mut self` receiver
is modelled by returning the final state of `self` together with the `Result`. -/
def WitnessTable.value_from_table {F : Type} [DecidableEq F] (w : WitnessTable F)
    (lookup_table : LookupTable F)
    (left_wire_val right_wire_val fourth_wire_val : F) :
    WitnessTable F × Except Error Unit :=
  match lookup_table.lookup left_wire_val right_wire_val fourth_wire_val with
  | Except.error e => (w, Except.error e)
  | Except.ok output_wire_val =>
      (⟨w.f_1.push left_wire_val, w.f_2.push right_wire_val,
        w.f_3.push output_wire_val, w.f_4.push fourth_wire_val⟩, Except.ok ())

/-- The column-alignment invariant of the spec: all four columns have equal length. -/
def aligned {F : Type} (w : WitnessTable F) : Prop :=
  w.f_1.elems.length = w.f_2.elems.length ∧
  w.f_2.elems.length = w.f_3.elems.length ∧
  w.f_3.elems.length = w.f_4.elems.length

instance {F : Type} (w : WitnessTable F) : Decidable (aligned w) := by
  unfold aligned; infer_instance

/-- One call into the witness-table ingestion API: either a direct
`from_wire_values` or a validated `value_from_table` against some lookup table. -/
inductive WitnessOp (F : Type) where
  | fromWire (a b c d : F)
  | fromTable (t : LookupTable F) (a b d : F)

/-- Applies one ingestion call to a witness-table state. -/
def applyWitnessOp {F : Type} [DecidableEq F] (w : WitnessTable F) :
    WitnessOp F → WitnessTable F
  | WitnessOp.fromWire a b c d => w.from_wire_values a b c d
  | WitnessOp.fromTable t a b d => (w.value_from_table t a b d).fst

/-- Runs a sequence of ingestion calls from a given starting state. -/
def runWitnessOpsFrom {F : Type} [DecidableEq F] (w : WitnessTable F)
    (ops : List (WitnessOp F)) : WitnessTable F :=
  ops.foldl applyWitnessOp w

/-- Runs a sequence of ingestion calls from the freshly created witness table. -/
def runWitnessOps {F : Type} [DecidableEq F] (ops : List (WitnessOp F)) :
    WitnessTable F :=
  runWitnessOpsFrom (WitnessTable.new F) ops

/-- Whether an ingestion call appends a row: `from_wire_values` always does;
`value_from_table` appends exactly when the lookup succeeds. -/
def opAppends {F : Type} [DecidableEq F] : WitnessOp F → Bool
  | WitnessOp.fromWire _ _ _ _ => true
  | WitnessOp.fromTable t a b d =>
      match t.lookup a b d with
      | Except.ok _ => true
      | Except.error _ => false

/-- One bulk-insertion call on a lookup table: the operation family and its two
range parameters. `new` is the empty fold and `xor_table` is the singleton fold,
so tables reachable through the public constructors are exactly the
`buildTable` results. -/
inductive TableOp : Type
  | xorOp (lower_bound n : ℕ)
  | addOp (lower_bound n : ℕ)

/-- Applies one bulk-insertion call to a lookup table. -/
def applyTableOp {F : Type} [CommRing F] (t : LookupTable F) :
    TableOp → LookupTable F
  | TableOp.xorOp lower_bound n => t.insert_multi_xor lower_bound n
  | TableOp.addOp lower_bound n => t.insert_multi_add lower_bound n

/-- The lookup table built by a sequence of bulk-insertion calls starting from the
empty table. -/
def buildTable (F : Type) [CommRing F] (ops : List TableOp) : LookupTable F :=
  ops.foldl applyTableOp (LookupTable.new F)

/-- Parameter sanity mirroring the `u64` operand width of the source: the
operation's operand range stays below `2^64`. -/
def opSmall : TableOp → Prop
  | TableOp.xorOp _ n => n ≤ 64
  | TableOp.addOp _ n => n ≤ 64

instance (op : TableOp) : Decidable (opSmall op) := by
  cases op <;> exact Nat.decLe _ _

/-- The functional-dependency invariant of the spec (section 3): for a fixed
`(a, b, d)`, all rows carrying that triple agree on the third component. -/
def FD {F : Type} (t : LookupTable F) : Prop :=
  ∀ r1 ∈ t.rows, ∀ r2 ∈ t.rows,
    r1.1 = r2.1 → r1.2.1 = r2.2.1 → r1.2.2.2 = r2.2.2.2 → r1.2.2.1 = r2.2.2.1

/-- Rows that can occur in a reachable table: an XOR row or an addition row with
operands below `2^64`. -/
def GoodRow {F : Type} [CommRing F] (r : F × F × F × F) : Prop :=
  (∃ a b : ℕ, a < 2 ^ 64 ∧ b < 2 ^ 64 ∧ r = xorRow F a b) ∨
    (∃ a b : ℕ, r = addRow F a b)

/-- The table of `test_lookup_fuctionality_1` (source lines 107-108):
`xor_table(0, 3)`. -/
def test1_table : LookupTable Fw := LookupTable.xor_table Fw 0 3

/-- First call of `test_lookup_fuctionality_1` (source lines 113-120), asserted
`is_ok` there: `value_from_table(&table, 2, 5, -1)` on a fresh witness table. -/
def test1_call_1 : WitnessTable Fw × Except Error Unit :=
  (WitnessTable.new Fw).value_from_table test1_table ((2 : ℕ) : Fw) ((5 : ℕ) : Fw)
    (-(1 : Fw))

/-- Second call of `test_lookup_fuctionality_1` (source lines 122-129), asserted
`is_err` there: `value_from_table(&table, 25, 5, -1)` on the state left by the
first call. -/
def test1_call_2 : WitnessTable Fw × Except Error Unit :=
  test1_call_1.fst.value_from_table test1_table ((25 : ℕ) : Fw) ((5 : ℕ) : Fw)
    (-(1 : Fw))

/-- The composite table of `test_lookup_fuctionality_2` (source lines 137-142):
`insert_multi_xor(0, 4)` then `insert_multi_add(2, 3)` on an empty table. -/
def composite_table : LookupTable Fw :=
  ((LookupTable.new Fw).insert_multi_xor 0 4).insert_multi_add 2 3

/-- First call of `test_lookup_fuctionality_2` (source lines 149-156), asserted
`is_ok`: `value_from_table(&table, 2, 3, -1)` on a fresh witness table. -/
def test2_call_1 : WitnessTable Fw × Except Error Unit :=
  (WitnessTable.new Fw).value_from_table composite_table ((2 : ℕ) : Fw)
    ((3 : ℕ) : Fw) (-(1 : Fw))

/-- Second call of `test_lookup_fuctionality_2` (source lines 157-164), asserted
`is_ok`: `value_from_table(&table, 4, 6, 0)`. -/
def test2_call_2 : WitnessTable Fw × Except Error Unit :=
  test2_call_1.fst.value_from_table composite_table ((4 : ℕ) : Fw) ((6 : ℕ) : Fw) 0

/-- Third call of `test_lookup_fuctionality_2` (source lines 168-175), asserted
`is_err`: `value_from_table(&table, 22, 1, -1)`. -/
def test2_call_3 : WitnessTable Fw × Except Error Unit :=
  test2_call_2.fst.value_from_table composite_table ((22 : ℕ) : Fw) ((1 : ℕ) : Fw)
    (-(1 : Fw))

/-- Fourth call of `test_lookup_fuctionality_2` (source lines 176-178), asserted
`is_err`: `value_from_table(&table, 0, 1, 0)`. -/
def test2_call_4 : WitnessTable Fw × Except Error Unit :=
  test2_call_3.fst.value_from_table composite_table ((0 : ℕ) : Fw) ((1 : ℕ) : Fw) 0

theorem mem_rangeList {m lower upper : ℕ} :
    m ∈ rangeList lower upper ↔ lower ≤ m ∧ m < upper := by
  simp only [rangeList, List.mem_range'_1]
  omega

theorem Fw_cast_inj (x y : ℕ) (hx : x < 2 ^ 64) (hy : y < 2 ^ 64)
    (h : (x : Fw) = (y : Fw)) : x = y := by
  have hm : (2 : ℕ) ^ 64 < 18446744073709551617 := by norm_num
  have hval := congrArg ZMod.val h
  rwa [ZMod.val_cast_of_lt (lt_trans hx hm), ZMod.val_cast_of_lt (lt_trans hy hm)]
    at hval

theorem mem_opRows {F : Type} [CommRing F] (row : ℕ → ℕ → F × F × F × F)
    (lower upper : ℕ) (r : F × F × F × F) :
    r ∈ opRows F row lower upper ↔
      ∃ a b : ℕ, (lower ≤ a ∧ a < upper) ∧ (lower ≤ b ∧ b < upper) ∧
        r = row a b := by
  unfold opRows
  constructor
  · intro h
    obtain ⟨p, hp, hr⟩ := List.mem_map.mp h
    obtain ⟨pa, pb⟩ := p
    rw [List.mem_product] at hp
    exact ⟨pa, pb, mem_rangeList.mp hp.1, mem_rangeList.mp hp.2, hr.symm⟩
  · rintro ⟨a, b, ha, hb, hr⟩
    exact List.mem_map.mpr ⟨(a, b),
      List.mem_product.mpr ⟨mem_rangeList.mpr ha, mem_rangeList.mpr hb⟩, hr.symm⟩

theorem lookup_eq_error_iff {F : Type} [DecidableEq F] (t : LookupTable F)
    (a b d : F) :
    t.lookup a b d = Except.error Error.ElementNotIndexed ↔
      ∀ r ∈ t.rows, ¬(r.1 = a ∧ r.2.1 = b ∧ r.2.2.2 = d) := by
  unfold LookupTable.lookup
  cases hf : t.rows.find? (fun r => decide (r.1 = a ∧ r.2.1 = b ∧ r.2.2.2 = d)) with
  | none =>
      have hall := List.find?_eq_none.mp hf
      constructor
      · intro _ r hr
        have h2 := hall r hr
        simpa using h2
      · intro _
        rfl
  | some r =>
      have hp := List.find?_some hf
      simp only [decide_eq_true_eq] at hp
      have hmem := List.mem_of_find?_eq_some hf
      constructor
      · intro h
        exact Except.noConfusion h
      · intro hall
        exact absurd hp (hall r hmem)

theorem lookup_eq_ok_of_mem {F : Type} [DecidableEq F] (t : LookupTable F)
    (a b c d : F) (hmem : (a, b, c, d) ∈ t.rows)
    (huniq : ∀ r ∈ t.rows, r.1 = a → r.2.1 = b → r.2.2.2 = d → r.2.2.1 = c) :
    t.lookup a b d = Except.ok c := by
  unfold LookupTable.lookup
  cases hf : t.rows.find? (fun r => decide (r.1 = a ∧ r.2.1 = b ∧ r.2.2.2 = d)) with
  | none =>
      have hall := List.find?_eq_none.mp hf
      have h2 := hall (a, b, c, d) hmem
      simp at h2
  | some r =>
      have hp := List.find?_some hf
      simp only [decide_eq_true_eq] at hp
      have hmem2 := List.mem_of_find?_eq_some hf
      have hc := huniq r hmem2 hp.1 hp.2.1 hp.2.2
      simp only []
      rw [hc]

theorem applyWitnessOp_lengths {F : Type} [DecidableEq F] (w : WitnessTable F)
    (op : WitnessOp F) :
    (applyWitnessOp w op).f_1.elems.length =
        w.f_1.elems.length + (if opAppends op then 1 else 0) ∧
      (applyWitnessOp w op).f_2.elems.length =
        w.f_2.elems.length + (if opAppends op then 1 else 0) ∧
      (applyWitnessOp w op).f_3.elems.length =
        w.f_3.elems.length + (if opAppends op then 1 else 0) ∧
      (applyWitnessOp w op).f_4.elems.length =
        w.f_4.elems.length + (if opAppends op then 1 else 0) := by
  cases op with
  | fromWire a b c d =>
      simp [applyWitnessOp, WitnessTable.from_wire_values, MultiSet.push, opAppends]
  | fromTable t a b d =>
      unfold applyWitnessOp WitnessTable.value_from_table opAppends
      cases hl : t.lookup a b d <;> simp [hl, MultiSet.push]

theorem runWitnessOpsFrom_lengths {F : Type} [DecidableEq F]
    (ops : List (WitnessOp F)) : ∀ w : WitnessTable F,
    (runWitnessOpsFrom w ops).f_1.elems.length =
        w.f_1.elems.length + ops.countP (fun op => opAppends op) ∧
      (runWitnessOpsFrom w ops).f_2.elems.length =
        w.f_2.elems.length + ops.countP (fun op => opAppends op) ∧
      (runWitnessOpsFrom w ops).f_3.elems.length =
        w.f_3.elems.length + ops.countP (fun op => opAppends op) ∧
      (runWitnessOpsFrom w ops).f_4.elems.length =
        w.f_4.elems.length + ops.countP (fun op => opAppends op) := by
  induction ops with
  | nil => intro w; simp [runWitnessOpsFrom]
  | cons op ops ih =>
      intro w
      have h1 := applyWitnessOp_lengths w op
      have h2 := ih (applyWitnessOp w op)
      have hrun : runWitnessOpsFrom w (op :: ops) =
          runWitnessOpsFrom (applyWitnessOp w op) ops := rfl
      rw [hrun, List.countP_cons]
      cases hb : opAppends op <;> simp [hb] at h1 ⊢ <;> omega

/-- C1: if `value_from_table` returns an error, the witness table is left exactly
as it was (nothing is appended to any of the four columns), and the error returned
is the one produced by `lookup_table.lookup (a, b, d)`. -/
theorem value_from_table_error_atomic {F : Type} [DecidableEq F]
    (w : WitnessTable F) (t : LookupTable F) (a b d : F) (e : Error)
    (h : (w.value_from_table t a b d).snd = Except.error e) :
    (w.value_from_table t a b d).fst = w ∧
      t.lookup a b d = Except.error e := by
  unfold WitnessTable.value_from_table at h ⊢
  cases hl : t.lookup a b d with
  | error e2 => simp [hl] at h ⊢
  | ok c => simp [hl] at h

/-- Witness for C1 at a concrete input: the empty lookup table misses `(1, 2, 3)`,
the state is unchanged and the lookup error is propagated. -/
theorem value_from_table_error_atomic_instance :
    ((WitnessTable.new ℕ).value_from_table (LookupTable.new ℕ) 1 2 3).snd =
        Except.error Error.ElementNotIndexed ∧
      ((WitnessTable.new ℕ).value_from_table (LookupTable.new ℕ) 1 2 3).fst =
        WitnessTable.new ℕ ∧
      (LookupTable.new ℕ).lookup 1 2 3 = Except.error Error.ElementNotIndexed := by
  refine ⟨rfl, ?_⟩
  have h := value_from_table_error_atomic (WitnessTable.new ℕ) (LookupTable.new ℕ)
    1 2 3 Error.ElementNotIndexed rfl
  exact ⟨h.1, h.2⟩

/-- C4: `from_wire_values` never fails and unconditionally appends `a`, `b`, `c`, `d`
to the ends of `f_1`..`f_4` respectively, growing each column by exactly one and
leaving every previously stored element unchanged. -/
theorem from_wire_values_appends {F : Type} (w : WitnessTable F) (a b c d : F) :
    (w.from_wire_values a b c d).f_1.elems = w.f_1.elems ++ [a] ∧
      (w.from_wire_values a b c d).f_2.elems = w.f_2.elems ++ [b] ∧
      (w.from_wire_values a b c d).f_3.elems = w.f_3.elems ++ [c] ∧
      (w.from_wire_values a b c d).f_4.elems = w.f_4.elems ++ [d] ∧
      (w.from_wire_values a b c d).f_1.elems.length = w.f_1.elems.length + 1 ∧
      (w.from_wire_values a b c d).f_2.elems.length = w.f_2.elems.length + 1 ∧
      (w.from_wire_values a b c d).f_3.elems.length = w.f_3.elems.length + 1 ∧
      (w.from_wire_values a b c d).f_4.elems.length = w.f_4.elems.length + 1 := by
  simp [WitnessTable.from_wire_values, MultiSet.push]

/-- C3: if `value_from_table` succeeds then the lookup produced some `c`, and
exactly `(a, b, c, d)` were appended, in lock-step, to the ends of the four
columns, with every previously stored element unchanged. -/
theorem value_from_table_ok_appends {F : Type} [DecidableEq F]
    (w : WitnessTable F) (t : LookupTable F) (a b d : F)
    (h : (w.value_from_table t a b d).snd = Except.ok ()) :
    ∃ c, t.lookup a b d = Except.ok c ∧
      (w.value_from_table t a b d).fst.f_1.elems = w.f_1.elems ++ [a] ∧
      (w.value_from_table t a b d).fst.f_2.elems = w.f_2.elems ++ [b] ∧
      (w.value_from_table t a b d).fst.f_3.elems = w.f_3.elems ++ [c] ∧
      (w.value_from_table t a b d).fst.f_4.elems = w.f_4.elems ++ [d] := by
  unfold WitnessTable.value_from_table at h ⊢
  cases hl : t.lookup a b d with
  | error e => simp [hl] at h
  | ok c => exact ⟨c, rfl, by simp [hl, MultiSet.push]⟩

/-- Witness for C3 at a concrete input: a one-row table `[(1, 2, 3, 4)]` hits on
`(1, 2, 4)` and appends `(1, 2, 3, 4)` to the empty witness table. -/
theorem value_from_table_ok_appends_instance :
    ∃ c, (LookupTable.mk [((1 : ℕ), 2, 3, 4)]).lookup 1 2 4 = Except.ok c ∧
      ((WitnessTable.new ℕ).value_from_table
          (LookupTable.mk [((1 : ℕ), 2, 3, 4)]) 1 2 4).fst.f_1.elems = [] ++ [1] ∧
      ((WitnessTable.new ℕ).value_from_table
          (LookupTable.mk [((1 : ℕ), 2, 3, 4)]) 1 2 4).fst.f_2.elems = [] ++ [2] ∧
      ((WitnessTable.new ℕ).value_from_table
          (LookupTable.mk [((1 : ℕ), 2, 3, 4)]) 1 2 4).fst.f_3.elems = [] ++ [c] ∧
      ((WitnessTable.new ℕ).value_from_table
          (LookupTable.mk [((1 : ℕ), 2, 3, 4)]) 1 2 4).fst.f_4.elems = [] ++ [4] :=
  value_from_table_ok_appends (WitnessTable.new ℕ)
    (LookupTable.mk [((1 : ℕ), 2, 3, 4)]) 1 2 4 rfl

/-- C2: the four columns of a fresh witness table have equal length, both mutators
preserve the equal-length invariant (whether `value_from_table` succeeds or fails),
and after any sequence of calls that each appended a row all four columns have
length equal to the number of calls. -/
theorem witness_columns_aligned {F : Type} [DecidableEq F] :
    aligned (WitnessTable.new F) ∧
      (∀ (w : WitnessTable F) (a b c d : F),
        aligned w → aligned (w.from_wire_values a b c d)) ∧
      (∀ (w : WitnessTable F) (t : LookupTable F) (a b d : F),
        aligned w → aligned (w.value_from_table t a b d).fst) ∧
      (∀ ops : List (WitnessOp F), (∀ op ∈ ops, opAppends op = true) →
        (runWitnessOps ops).f_1.elems.length = ops.length ∧
          (runWitnessOps ops).f_2.elems.length = ops.length ∧
          (runWitnessOps ops).f_3.elems.length = ops.length ∧
          (runWitnessOps ops).f_4.elems.length = ops.length) := by
  refine ⟨by simp [aligned, WitnessTable.new], ?_, ?_, ?_⟩
  · intro w a b c d hw
    unfold aligned at hw ⊢
    simp [WitnessTable.from_wire_values, MultiSet.push]
    omega
  · intro w t a b d hw
    unfold aligned at hw ⊢
    unfold WitnessTable.value_from_table
    cases hl : t.lookup a b d <;> simp [hl, MultiSet.push] <;> omega
  · intro ops hall
    have h := runWitnessOpsFrom_lengths ops (WitnessTable.new F)
    have hcount : ops.countP (fun op => opAppends op) = ops.length :=
      List.countP_eq_length.mpr hall
    have hz1 : (WitnessTable.new F).f_1.elems.length = 0 := rfl
    have hz2 : (WitnessTable.new F).f_2.elems.length = 0 := rfl
    have hz3 : (WitnessTable.new F).f_3.elems.length = 0 := rfl
    have hz4 : (WitnessTable.new F).f_4.elems.length = 0 := rfl
    unfold runWitnessOps
    omega

/-- Witness for C2 at concrete inputs: a fresh table is aligned; a sequence of two
appending calls (a direct wire write and a successful table-validated write against
the one-row table `[(1, 2, 3, 4)]`) leaves all four columns at length 2. -/
theorem witness_columns_aligned_instance :
    aligned (WitnessTable.new ℕ) ∧
      (runWitnessOps [WitnessOp.fromWire (1 : ℕ) 2 3 4,
        WitnessOp.fromTable (LookupTable.mk [((1 : ℕ), 2, 3, 4)]) 1 2 4]).f_1.elems.length
        = 2 ∧
      (runWitnessOps [WitnessOp.fromWire (1 : ℕ) 2 3 4,
        WitnessOp.fromTable (LookupTable.mk [((1 : ℕ), 2, 3, 4)]) 1 2 4]).f_4.elems.length
        = 2 ∧
      aligned ((WitnessTable.new ℕ).from_wire_values 1 2 3 4) := by
  refine ⟨(witness_columns_aligned (F := ℕ)).1, ?_, ?_, ?_⟩
  · exact ((witness_columns_aligned (F := ℕ)).2.2.2 _ (by decide)).1
  · exact ((witness_columns_aligned (F := ℕ)).2.2.2 _ (by decide)).2.2.2
  · exact (witness_columns_aligned (F := ℕ)).2.1 _ 1 2 3 4
      (witness_columns_aligned (F := ℕ)).1

/-- C9: the outcome of `value_from_table` does not depend on the current contents of
the witness table: for any two starting states, the returned `Result` is the same
and the values appended beyond the prior length of each column are the same. -/
theorem value_from_table_state_independent {F : Type} [DecidableEq F]
    (t : LookupTable F) (a b d : F) (s1 s2 : WitnessTable F) :
    (s1.value_from_table t a b d).snd = (s2.value_from_table t a b d).snd ∧
      (s1.value_from_table t a b d).fst.f_1.elems.drop s1.f_1.elems.length =
        (s2.value_from_table t a b d).fst.f_1.elems.drop s2.f_1.elems.length ∧
      (s1.value_from_table t a b d).fst.f_2.elems.drop s1.f_2.elems.length =
        (s2.value_from_table t a b d).fst.f_2.elems.drop s2.f_2.elems.length ∧
      (s1.value_from_table t a b d).fst.f_3.elems.drop s1.f_3.elems.length =
        (s2.value_from_table t a b d).fst.f_3.elems.drop s2.f_3.elems.length ∧
      (s1.value_from_table t a b d).fst.f_4.elems.drop s1.f_4.elems.length =
        (s2.value_from_table t a b d).fst.f_4.elems.drop s2.f_4.elems.length := by
  unfold WitnessTable.value_from_table
  cases hl : t.lookup a b d <;>
    simp [hl, MultiSet.push, List.drop_left, List.drop_length]

/-- C10: whenever the lookup succeeds with `c`, `value_from_table (t, a, b, d)`
leaves the witness table in exactly the state a single `from_wire_values (a, b, c, d)`
call would produce from the same starting state, and reports success. -/
theorem value_from_table_refines_from_wire_values {F : Type} [DecidableEq F]
    (w : WitnessTable F) (t : LookupTable F) (a b c d : F)
    (h : t.lookup a b d = Except.ok c) :
    w.value_from_table t a b d = (w.from_wire_values a b c d, Except.ok ()) := by
  unfold WitnessTable.value_from_table WitnessTable.from_wire_values
  simp [h]

/-- Witness for C10 at a concrete input: the one-row table `[(5, 6, 7, 8)]` hits on
`(5, 6, 8)` with output 7, and `value_from_table` coincides with
`from_wire_values 5 6 7 8`. -/
theorem value_from_table_refines_from_wire_values_instance :
    (LookupTable.mk [((5 : ℕ), 6, 7, 8)]).lookup 5 6 8 = Except.ok 7 ∧
      (WitnessTable.new ℕ).value_from_table (LookupTable.mk [((5 : ℕ), 6, 7, 8)]) 5 6 8 =
        ((WitnessTable.new ℕ).from_wire_values 5 6 7 8, Except.ok ()) :=
  ⟨rfl, value_from_table_refines_from_wire_values (WitnessTable.new ℕ)
    (LookupTable.mk [((5 : ℕ), 6, 7, 8)]) 5 6 7 8 rfl⟩

/-- The test-corrected model reproduces every assertion of the source test
`test_lookup_fuctionality_1` (lines 103-130): the first call succeeds and the
second fails. Under the spec's literal reading of `xor_table(0, 3)` the first
call would fail (see `specWords_model_fails_the_tests`). -/
theorem model_matches_test_lookup_fuctionality_1 :
    test1_call_1.snd = Except.ok () ∧
      test1_call_2.snd = Except.error Error.ElementNotIndexed := by
  decide

/-- The test-corrected model reproduces every assertion of the source test
`test_lookup_fuctionality_2` (lines 132-179): the first two calls succeed and
the last two fail. -/
theorem model_matches_test_lookup_fuctionality_2 :
    test2_call_1.snd = Except.ok () ∧
      test2_call_2.snd = Except.ok () ∧
      test2_call_3.snd = Except.error Error.ElementNotIndexed ∧
      test2_call_4.snd = Except.error Error.ElementNotIndexed := by
  decide

/-- The spec's literal parameter reading (inclusive interval `[min, max]`)
contradicts the repository's tests: under it, the lookup `(2, 5, XOR)` that
`test_lookup_fuctionality_1` asserts to succeed misses (5 would be outside
`[0, 3]`), and the lookup `(4, 6, ADD)` that `test_lookup_fuctionality_2`
asserts to succeed misses (4 and 6 would be outside `[2, 3]`). -/
theorem specWords_model_fails_the_tests :
    (LookupTable.xor_table_specWords Fw 0 3).lookup ((2 : ℕ) : Fw) ((5 : ℕ) : Fw)
        (SELECTOR_XOR Fw) = Except.error Error.ElementNotIndexed ∧
      (((LookupTable.new Fw).insert_multi_xor_specWords 0 4).insert_multi_add_specWords
          2 3).lookup ((4 : ℕ) : Fw) ((6 : ℕ) : Fw) (SELECTOR_ADD Fw) =
        Except.error Error.ElementNotIndexed := by
  decide

/-- C5 counterexample: after `xor_table(0, 3)`, the claim asserts that
`value_from_table (table, 2, 5, SELECTOR_XOR)` fails because 5 is outside
`[0, 3]`; in fact the operand range of `xor_table(0, 3)` is `[0, 2^3)`, the
lookup `(2, 5, SELECTOR_XOR)` succeeds returning `2 XOR 5 = 7`, and
`value_from_table` succeeds — exactly what the repository's own test asserts
(`witness_table.rs` lines 113-120). -/
theorem xor_table_lookup_2_5_succeeds :
    (LookupTable.xor_table Fw 0 3).lookup ((2 : ℕ) : Fw) ((5 : ℕ) : Fw)
        (SELECTOR_XOR Fw) = Except.ok ((7 : ℕ) : Fw) ∧
      ((WitnessTable.new Fw).value_from_table (LookupTable.xor_table Fw 0 3)
          ((2 : ℕ) : Fw) ((5 : ℕ) : Fw) (SELECTOR_XOR Fw)).snd = Except.ok () := by
  decide

/-- C5 (amended): for a table built by `insert_multi_xor(lower, n)` — whose
second parameter is a bit count, the operands ranging over `[lower, 2^n)` — the
lookup `(a, b, SELECTOR_XOR)` succeeds for all `a, b` in `[lower, 2^n)` and
returns the bitwise XOR of `a` and `b`; for `u64`-representable `a` or `b`
outside `[lower, 2^n)` it fails; and `value_from_table` succeeds on every
in-range pair. Stated for any commutative ring whose embedding is injective
below `2^64`, as it is for the BLS12-381 and BLS12-377 scalar fields the tests
instantiate. -/
theorem insert_multi_xor_lookup_characterization {F : Type} [CommRing F]
    [DecidableEq F] (lower n : ℕ) (hn : 2 ^ n ≤ 2 ^ 64)
    (hinj : ∀ x y : ℕ, x < 2 ^ 64 → y < 2 ^ 64 → (x : F) = (y : F) → x = y) :
    (∀ a b : ℕ, lower ≤ a → a < 2 ^ n → lower ≤ b → b < 2 ^ n →
      (LookupTable.xor_table F lower n).lookup (a : F) (b : F) (SELECTOR_XOR F) =
        Except.ok ((Nat.xor a b : ℕ) : F)) ∧
      (∀ a b : ℕ, a < 2 ^ 64 → b < 2 ^ 64 →
        (a < lower ∨ 2 ^ n ≤ a ∨ b < lower ∨ 2 ^ n ≤ b) →
        (LookupTable.xor_table F lower n).lookup (a : F) (b : F) (SELECTOR_XOR F) =
          Except.error Error.ElementNotIndexed) ∧
      (∀ (w : WitnessTable F) (a b : ℕ),
        lower ≤ a → a < 2 ^ n → lower ≤ b → b < 2 ^ n →
        (w.value_from_table (LookupTable.xor_table F lower n) (a : F) (b : F)
          (SELECTOR_XOR F)).snd = Except.ok ()) := by
  have hrows : ∀ r ∈ (LookupTable.xor_table F lower n).rows,
      ∃ a2 b2 : ℕ, (lower ≤ a2 ∧ a2 < 2 ^ n) ∧ (lower ≤ b2 ∧ b2 < 2 ^ n) ∧
        r = xorRow F a2 b2 := by
    intro r hr
    have h2 : r ∈ opRows F (xorRow F) lower (2 ^ n) := by
      simpa [LookupTable.xor_table, LookupTable.insert_multi_xor,
        LookupTable.new] using hr
    exact (mem_opRows _ _ _ _).mp h2
  have hsucc : ∀ a b : ℕ, lower ≤ a → a < 2 ^ n → lower ≤ b → b < 2 ^ n →
      (LookupTable.xor_table F lower n).lookup (a : F) (b : F) (SELECTOR_XOR F) =
        Except.ok ((Nat.xor a b : ℕ) : F) := by
    intro a b ha1 ha2 hb1 hb2
    apply lookup_eq_ok_of_mem
    · have h2 : xorRow F a b ∈ opRows F (xorRow F) lower (2 ^ n) :=
        (mem_opRows _ _ _ _).mpr ⟨a, b, ⟨ha1, ha2⟩, ⟨hb1, hb2⟩, rfl⟩
      simpa [LookupTable.xor_table, LookupTable.insert_multi_xor,
        LookupTable.new, xorRow] using h2
    · intro r hr h1 h2 _
      obtain ⟨a2, b2, ⟨_, ha22⟩, ⟨_, hb22⟩, rfl⟩ := hrows r hr
      have hea : a2 = a := hinj a2 a (lt_of_lt_of_le ha22 hn)
        (lt_of_lt_of_le ha2 hn) (by simpa [xorRow] using h1)
      have heb : b2 = b := hinj b2 b (lt_of_lt_of_le hb22 hn)
        (lt_of_lt_of_le hb2 hn) (by simpa [xorRow] using h2)
      rw [hea, heb] at *
      simp [xorRow]
  refine ⟨hsucc, ?_, ?_⟩
  · intro a b ha hb hout
    rw [lookup_eq_error_iff]
    intro r hr hmatch
    obtain ⟨a2, b2, ⟨ha21, ha22⟩, ⟨hb21, hb22⟩, rfl⟩ := hrows r hr
    have hea : a2 = a := hinj a2 a (lt_of_lt_of_le ha22 hn) ha
      (by simpa [xorRow] using hmatch.1)
    have heb : b2 = b := hinj b2 b (lt_of_lt_of_le hb22 hn) hb
      (by simpa [xorRow] using hmatch.2.1)
    omega
  · intro w a b ha1 ha2 hb1 hb2
    have h2 := hsucc a b ha1 ha2 hb1 hb2
    simp [WitnessTable.value_from_table, h2]

/-- Witness for C5 (amended) at the concrete inputs of the repository's test:
over the stand-in field, `xor_table(0, 3)` hits on `(2, 5, XOR)` with output
`2 XOR 5`, and misses on `(25, 5, XOR)` since `25` is outside `[0, 2^3)`. -/
theorem insert_multi_xor_lookup_characterization_instance :
    (LookupTable.xor_table Fw 0 3).lookup ((2 : ℕ) : Fw) ((5 : ℕ) : Fw)
        (SELECTOR_XOR Fw) = Except.ok ((Nat.xor 2 5 : ℕ) : Fw) ∧
      (LookupTable.xor_table Fw 0 3).lookup ((25 : ℕ) : Fw) ((5 : ℕ) : Fw)
        (SELECTOR_XOR Fw) = Except.error Error.ElementNotIndexed := by
  have h := insert_multi_xor_lookup_characterization (F := Fw) 0 3 (by norm_num)
    Fw_cast_inj
  exact ⟨h.1 2 5 (by norm_num) (by norm_num) (by norm_num) (by norm_num),
    h.2.1 25 5 (by norm_num) (by norm_num) (Or.inr (Or.inl (by norm_num)))⟩

/-- C6 counterexample: the claim says `insert_multi_xor(min, max)` enumerates the
inclusive interval `[min, max]` and produces `(max - min + 1)^2` rows; in fact
`insert_multi_xor(0, 3)` produces `64 = (2^3)^2` rows, not `(3 - 0 + 1)^2 = 16`,
and contains the row `(2, 5, 7, SELECTOR_XOR)` whose operand 5 lies outside
`[0, 3]` (consistently with the source test's successful `(2, 5, XOR)` lookup). -/
theorem insert_multi_xor_0_3_row_count :
    ((LookupTable.new Fw).insert_multi_xor 0 3).rows.length = 64 ∧
      (3 - 0 + 1) ^ 2 = 16 ∧ (64 : ℕ) ≠ 16 ∧
      (((2 : ℕ) : Fw), ((5 : ℕ) : Fw), ((7 : ℕ) : Fw), SELECTOR_XOR Fw) ∈
        ((LookupTable.new Fw).insert_multi_xor 0 3).rows := by
  refine ⟨by decide, by norm_num, by norm_num, by decide⟩

/-- C6 (amended): `insert_multi_xor(lower, n)` appends, for every pair `(a, b)`
with `a` and `b` ranging over `[lower, 2^n)` (the second parameter is a bit
count), the row `(a, b, a XOR b, SELECTOR_XOR)`, the XOR computed on the
embedded integers and re-embedded into the field; it appends exactly
`(2^n - lower)^2` rows; and `SELECTOR_XOR` is the field's additive inverse of
one. -/
theorem insert_multi_xor_rows_description {F : Type} [CommRing F]
    (t : LookupTable F) (lower n : ℕ) :
    (t.insert_multi_xor lower n).rows.length =
        t.rows.length + (2 ^ n - lower) ^ 2 ∧
      (∀ a b : ℕ, lower ≤ a → a < 2 ^ n → lower ≤ b → b < 2 ^ n →
        (((a : F)), ((b : F)), ((Nat.xor a b : ℕ) : F), SELECTOR_XOR F) ∈
          (t.insert_multi_xor lower n).rows) ∧
      (∀ r ∈ (t.insert_multi_xor lower n).rows, r ∈ t.rows ∨
        ∃ a b : ℕ, (lower ≤ a ∧ a < 2 ^ n) ∧ (lower ≤ b ∧ b < 2 ^ n) ∧
          r = (((a : F)), ((b : F)), ((Nat.xor a b : ℕ) : F), SELECTOR_XOR F)) ∧
      SELECTOR_XOR F = -(1 : F) := by
  refine ⟨?_, ?_, ?_, rfl⟩
  · show (t.rows ++ opRows F (xorRow F) lower (2 ^ n)).length = _
    rw [List.length_append, opRows, List.length_map, List.length_product,
      pow_two, rangeList, List.length_range']
  · intro a b ha1 ha2 hb1 hb2
    have h2 : xorRow F a b ∈ opRows F (xorRow F) lower (2 ^ n) :=
      (mem_opRows _ _ _ _).mpr ⟨a, b, ⟨ha1, ha2⟩, ⟨hb1, hb2⟩, rfl⟩
    show _ ∈ t.rows ++ opRows F (xorRow F) lower (2 ^ n)
    exact List.mem_append_right _ (by simpa [xorRow] using h2)
  · intro r hr
    have hr2 : r ∈ t.rows ++ opRows F (xorRow F) lower (2 ^ n) := hr
    rcases List.mem_append.mp hr2 with h | h
    · exact Or.inl h
    · right
      obtain ⟨a, b, ha, hb, rfl⟩ := (mem_opRows _ _ _ _).mp h
      exact ⟨a, b, ha, hb, by simp [xorRow]⟩

/-- Witness for C6 (amended) at concrete inputs: `insert_multi_xor(0, 1)` on the
empty table has `(2^1 - 0)^2 = 4` rows, contains the row for the pair `(0, 0)`,
and its selector is `-1`. -/
theorem insert_multi_xor_rows_description_instance :
    ((LookupTable.new Fw).insert_multi_xor 0 1).rows.length = 0 + (2 ^ 1 - 0) ^ 2 ∧
      (((0 : ℕ) : Fw), ((0 : ℕ) : Fw), ((Nat.xor 0 0 : ℕ) : Fw), SELECTOR_XOR Fw) ∈
        ((LookupTable.new Fw).insert_multi_xor 0 1).rows ∧
      SELECTOR_XOR Fw = -(1 : Fw) := by
  have h := insert_multi_xor_rows_description (F := Fw) (LookupTable.new Fw) 0 1
  refine ⟨?_, h.2.1 0 0 (by norm_num) (by norm_num) (by norm_num) (by norm_num),
    h.2.2.2⟩
  have h0 : (LookupTable.new Fw).rows.length = 0 := rfl
  rw [h.1, h0]

/-- C7: on the composite table built by `insert_multi_xor(0, 4)` then
`insert_multi_add(2, 3)`, from any witness-table state:
`value_from_table (2, 3, SELECTOR_ADD)` succeeds and appends exactly the row
`(2, 3, 5, SELECTOR_ADD)`; `value_from_table (22, 1, SELECTOR_XOR)` fails; and
`value_from_table (0, 1, SELECTOR_ADD)` fails because 0 is outside the add
range. -/
theorem composite_table_lookup_outcomes :
    ∀ w : WitnessTable Fw,
      w.value_from_table composite_table ((2 : ℕ) : Fw) ((3 : ℕ) : Fw)
          (SELECTOR_ADD Fw) =
        (w.from_wire_values ((2 : ℕ) : Fw) ((3 : ℕ) : Fw) ((5 : ℕ) : Fw)
          (SELECTOR_ADD Fw), Except.ok ()) ∧
      (w.value_from_table composite_table ((22 : ℕ) : Fw) ((1 : ℕ) : Fw)
          (SELECTOR_XOR Fw)).snd = Except.error Error.ElementNotIndexed ∧
      (w.value_from_table composite_table ((0 : ℕ) : Fw) ((1 : ℕ) : Fw)
          (SELECTOR_ADD Fw)).snd = Except.error Error.ElementNotIndexed := by
  have h1 : composite_table.lookup ((2 : ℕ) : Fw) ((3 : ℕ) : Fw)
      (SELECTOR_ADD Fw) = Except.ok ((5 : ℕ) : Fw) := by decide
  have h2 : composite_table.lookup ((22 : ℕ) : Fw) ((1 : ℕ) : Fw)
      (SELECTOR_XOR Fw) = Except.error Error.ElementNotIndexed := by decide
  have h3 : composite_table.lookup ((0 : ℕ) : Fw) ((1 : ℕ) : Fw)
      (SELECTOR_ADD Fw) = Except.error Error.ElementNotIndexed := by decide
  intro w
  refine ⟨?_, ?_, ?_⟩
  · unfold WitnessTable.value_from_table
    rw [h1]
    rfl
  · unfold WitnessTable.value_from_table
    rw [h2]
  · unfold WitnessTable.value_from_table
    rw [h3]

theorem buildTable_rows_good {F : Type} [CommRing F] (ops : List TableOp)
    (hops : ∀ op ∈ ops, opSmall op) :
    ∀ r ∈ (buildTable F ops).rows, GoodRow r := by
  suffices h : ∀ (ops2 : List TableOp) (t : LookupTable F),
      (∀ op ∈ ops2, opSmall op) → (∀ r ∈ t.rows, GoodRow r) →
      ∀ r ∈ (ops2.foldl applyTableOp t).rows, GoodRow r by
    refine h ops (LookupTable.new F) hops ?_
    intro r hr
    simp [LookupTable.new] at hr
  intro ops2
  induction ops2 with
  | nil =>
      intro t _ ht r hr
      exact ht r hr
  | cons op ops3 ih =>
      intro t hops2 ht r hr
      refine ih (applyTableOp t op)
        (fun o ho => hops2 o (List.mem_cons_of_mem _ ho)) ?_ r hr
      intro r2 hr2
      have hsm := hops2 op (List.mem_cons_self _ _)
      cases op with
      | xorOp lower_bound nn =>
          have hr3 : r2 ∈ t.rows ++ opRows F (xorRow F) lower_bound (2 ^ nn) := hr2
          rcases List.mem_append.mp hr3 with h | h
          · exact ht r2 h
          · obtain ⟨a2, b2, ⟨_, ha⟩, ⟨_, hb⟩, rfl⟩ := (mem_opRows _ _ _ _).mp h
            have hnn : nn ≤ 64 := hsm
            have hbound : (2 : ℕ) ^ nn ≤ 2 ^ 64 :=
              Nat.pow_le_pow_right (by norm_num) hnn
            exact Or.inl ⟨a2, b2, lt_of_lt_of_le ha hbound,
              lt_of_lt_of_le hb hbound, rfl⟩
      | addOp lower_bound nn =>
          have hr3 : r2 ∈ t.rows ++ opRows F (addRow F) lower_bound (2 ^ nn) := hr2
          rcases List.mem_append.mp hr3 with h | h
          · exact ht r2 h
          · obtain ⟨a2, b2, _, _, rfl⟩ := (mem_opRows _ _ _ _).mp h
            exact Or.inr ⟨a2, b2, rfl⟩

theorem FD_of_good {F : Type} [CommRing F]
    (hinj : ∀ x y : ℕ, x < 2 ^ 64 → y < 2 ^ 64 → (x : F) = (y : F) → x = y)
    (hsel : SELECTOR_XOR F ≠ SELECTOR_ADD F)
    (t : LookupTable F) (hgood : ∀ r ∈ t.rows, GoodRow r) : FD t := by
  intro r1 h1 r2 h2 e1 e2 e4
  rcases hgood r1 h1 with ⟨a1, b1, ha1, hb1, rfl⟩ | ⟨a1, b1, rfl⟩ <;>
    rcases hgood r2 h2 with ⟨a2, b2, ha2, hb2, rfl⟩ | ⟨a2, b2, rfl⟩
  · simp only [xorRow] at e1 e2 ⊢
    rw [hinj a1 a2 ha1 ha2 e1, hinj b1 b2 hb1 hb2 e2]
  · exact absurd (by simpa [xorRow, addRow] using e4) hsel
  · exact absurd (by simpa [xorRow, addRow] using e4.symm) hsel
  · simp only [addRow] at e1 e2 ⊢
    rw [e1, e2]

/-- C8: every lookup table reachable by a sequence of the insertion constructors
(`new`, `insert_multi_xor`, `insert_multi_add`; `xor_table` is the singleton
sequence) with `u64`-sized operand ranges satisfies the functional dependency:
rows sharing `(a, b, d)` share their third component; consequently `lookup`
returns the unique `c` of any present row `(a, b, c, d)` and fails with the
not-found error exactly when no such row exists. Stated for any commutative
ring whose embedding is injective below `2^64` and whose two selectors differ,
as holds in the BLS12-381 and BLS12-377 scalar fields the tests instantiate. -/
theorem reachable_table_functional_dependency {F : Type} [CommRing F]
    [DecidableEq F]
    (hinj : ∀ x y : ℕ, x < 2 ^ 64 → y < 2 ^ 64 → (x : F) = (y : F) → x = y)
    (hsel : SELECTOR_XOR F ≠ SELECTOR_ADD F)
    (ops : List TableOp) (hops : ∀ op ∈ ops, opSmall op) :
    FD (buildTable F ops) ∧
      (∀ a b c d : F, (a, b, c, d) ∈ (buildTable F ops).rows →
        (buildTable F ops).lookup a b d = Except.ok c) ∧
      (∀ a b d : F, (∀ c : F, (a, b, c, d) ∉ (buildTable F ops).rows) →
        (buildTable F ops).lookup a b d =
          Except.error Error.ElementNotIndexed) := by
  have hgood := buildTable_rows_good (F := F) ops hops
  have hfd := FD_of_good hinj hsel _ hgood
  refine ⟨hfd, ?_, ?_⟩
  · intro a b c d hmem
    refine lookup_eq_ok_of_mem _ a b c d hmem ?_
    intro r hr hra hrb hrd
    exact hfd r hr (a, b, c, d) hmem hra hrb hrd
  · intro a b d hnone
    rw [lookup_eq_error_iff]
    rintro ⟨r1, r2, r3, r4⟩ hr ⟨hx, hy, hz⟩
    simp only at hx hy hz
    rw [hx, hy, hz] at hr
    exact hnone r3 hr

/-- Witness for C8 at a concrete reachable table: `insert_multi_xor(0, 1)` then
`insert_multi_add(0, 1)` over the stand-in field satisfies the functional
dependency, and `lookup (0, 1, SELECTOR_XOR)` returns the XOR row's output 1. -/
theorem reachable_table_functional_dependency_instance :
    FD (buildTable Fw [TableOp.xorOp 0 1, TableOp.addOp 0 1]) ∧
      (buildTable Fw [TableOp.xorOp 0 1, TableOp.addOp 0 1]).lookup
          ((0 : ℕ) : Fw) ((1 : ℕ) : Fw) (SELECTOR_XOR Fw) =
        Except.ok ((1 : ℕ) : Fw) := by
  have h := reachable_table_functional_dependency (F := Fw) Fw_cast_inj
    (by decide) [TableOp.xorOp 0 1, TableOp.addOp 0 1] (by decide)
  exact ⟨h.1, h.2.1 ((0 : ℕ) : Fw) ((1 : ℕ) : Fw) ((1 : ℕ) : Fw)
    (SELECTOR_XOR Fw) (by decide)⟩

end Plonk
